import Mathlib

/-!
Verification of the `nile` repository's numeric codec and Account
orchestration layer (`src/nile/utils/__init__.py`, `src/nile/core/account.py`)
against its natural-language specification.

Python's dynamically typed values are embedded as `PyVal` (integers are
unbounded, so `ℤ`), and fallible Python code as `Except PyErr`.  Collaborator
modules that are not part of the two source files (`nile.common`,
`nile.accounts`, `nile.deployments`, the signer and the dispatcher) are
modelled from the specification's collaborator contracts, and are marked as
such in their doc comments.
-/

set_option maxRecDepth 100000

namespace Nile

/-- Decidable equality of fallible results, for evaluating the embedded
functions at concrete inputs. -/
instance {ε α : Type} [DecidableEq ε] [DecidableEq α] : DecidableEq (Except ε α)
  | .ok a, .ok b =>
      if h : a = b then .isTrue (by rw [h])
      else .isFalse (by intro hc; cases hc; exact h rfl)
  | .ok _, .error _ => .isFalse (by intro hc; cases hc)
  | .error _, .ok _ => .isFalse (by intro hc; cases hc)
  | .error e, .error f =>
      if h : e = f then .isTrue (by rw [h])
      else .isFalse (by intro hc; cases hc; exact h rfl)

/-- A Python value as it flows through the code under verification: an
unbounded integer or a string. -/
inductive PyVal where
  | int (n : ℤ)
  | str (s : String)
deriving DecidableEq, Repr

/-- The Python exceptions that the embedded code can raise. -/
inductive PyErr where
  | typeError
  | valueError
  | keyError
  | overflowError
  | unicodeDecodeError
  | unicodeEncodeError
  | zeroDivisionError
  | stopIteration
deriving DecidableEq, Repr

/-- Value of a decimal digit character, if it is one. -/
def decDigit (c : Char) : Option ℕ :=
  if c.toNat ≥ 48 ∧ c.toNat ≤ 57 then some (c.toNat - 48) else none

/-- Value of a hexadecimal digit character, if it is one. -/
def hexDigit (c : Char) : Option ℕ :=
  if c.toNat ≥ 48 ∧ c.toNat ≤ 57 then some (c.toNat - 48)
  else if c.toNat ≥ 97 ∧ c.toNat ≤ 102 then some (c.toNat - 87)
  else if c.toNat ≥ 65 ∧ c.toNat ≤ 70 then some (c.toNat - 55)
  else none

/-- Fold a digit list in a given base; `none` if empty or a non-digit occurs. -/
def digitsValue (digit : Char → Option ℕ) (base : ℕ) : List Char → Option ℕ
  | [] => none
  | cs => cs.foldl
      (fun acc c => match acc, digit c with
        | some v, some d => some (v * base + d)
        | _, _ => none)
      (some 0)

/-- Python `int(s)` on a string: an optional sign followed by decimal digits.
(The whitespace- and underscore-tolerant forms that `int` also accepts never
arise in this development and are not modelled.)  Raises `ValueError` on
anything else, e.g. on hex strings such as `"0x1"`. -/
def pyIntOfString (s : String) : Except PyErr ℤ :=
  match s.toList with
  | '-' :: rest =>
      match digitsValue decDigit 10 rest with
      | some v => .ok (-(v : ℤ))
      | none => .error .valueError
  | '+' :: rest =>
      match digitsValue decDigit 10 rest with
      | some v => .ok (v : ℤ)
      | none => .error .valueError
  | cs =>
      match digitsValue decDigit 10 cs with
      | some v => .ok (v : ℤ)
      | none => .error .valueError

/-- Python `int(s, 16)`: an optional sign, an optional `0x`/`0X` marker, then
hex digits. -/
def pyIntBase16 (s : String) : Except PyErr ℤ :=
  let core : List Char → Except PyErr ℤ := fun cs =>
    let cs' := match cs with
      | '0' :: 'x' :: rest => rest
      | '0' :: 'X' :: rest => rest
      | other => other
    match digitsValue hexDigit 16 cs' with
    | some v => .ok (v : ℤ)
    | none => .error .valueError
  match s.toList with
  | '-' :: rest => (core rest).map (fun v => -v)
  | '+' :: rest => core rest
  | cs => core cs

/-- Python's `int(x)` builtin on the value kinds in play: the identity on
integers, decimal parsing on strings. -/
def pyInt : PyVal → Except PyErr ℤ
  | .int n => .ok n
  | .str s => pyIntOfString s

/-- Whether the character list starts with the given pattern. -/
def startsWithChars : List Char → List Char → Bool
  | [], _ => true
  | _ :: _, [] => false
  | p :: ps, c :: cs => p = c && startsWithChars ps cs

/-- Whether the character list contains the pattern as a contiguous run
(Python's `in` on strings). -/
def containsChars (pat : List Char) : List Char → Bool
  | [] => startsWithChars pat []
  | c :: cs => startsWithChars pat (c :: cs) || containsChars pat cs

/-- Python `"0x" in s`. -/
def strContains0x (s : String) : Bool :=
  containsChars ['0', 'x'] s.toList

/-- Python `s.startswith("0x")`. -/
def strStarts0x (s : String) : Bool :=
  startsWithChars ['0', 'x'] s.toList

/-- `normalize_number` (utils/__init__.py lines 143-148): a string with a
`0x` marker is parsed base-16, every other value goes through `int`
(identity on integers, base-10 on strings). -/
def normalize_number (number : PyVal) : Except PyErr ℤ :=
  match number with
  | .str s => if strStarts0x s then pyIntBase16 s else pyIntOfString s
  | .int n => .ok n

/-- `str_to_felt` (utils/__init__.py lines 38-41): `bytes(text, "ascii")`
raises `UnicodeEncodeError` on any character outside ASCII; otherwise
`int.from_bytes(b, "big")` reads the bytes big-endian. -/
def str_to_felt (text : String) : Except PyErr ℤ :=
  if text.toList.all (fun c => c.toNat < 128) then
    .ok ((text.toList.foldl (fun acc c => acc * 256 + c.toNat) 0 : ℕ) : ℤ)
  else
    .error .unicodeEncodeError

/-- Python `n.to_bytes(len, "big")`: the big-endian byte string of `n`,
zero-padded on the left to `len` bytes; `OverflowError` when `n` does not
fit (and on negative `n`). -/
def intToBytesBE (n : ℤ) (len : ℕ) : Except PyErr (List ℕ) :=
  if 0 ≤ n ∧ n < (256 : ℤ) ^ len then
    .ok ((List.range len).map (fun i => n.toNat / 256 ^ (len - 1 - i) % 256))
  else
    .error .overflowError

/-- Python `b.decode()` on the byte strings reachable here, all of which are
pure ASCII; a byte ≥ 0x80 is reported as a decode error (the spec's
`DecodeError`; multi-byte UTF-8 sequences never arise from the inputs in this
development). -/
def bytesDecode (bs : List ℕ) : Except PyErr String :=
  if bs.all (· < 128) then
    .ok (String.mk (bs.map Char.ofNat))
  else
    .error .unicodeDecodeError

/-- `felt_to_str` (utils/__init__.py lines 44-48).  The first line,
`felt = int(felt, 16) if "0x" in felt else int(felt)`, applies the operator
`in` to `felt`, which raises `TypeError` whenever `felt` is an integer
(`argument of type 'int' is not iterable`); on a string it parses it.  Then
`felt.to_bytes(31, "big")` (left-zero-padded) and `.decode()`. -/
def felt_to_str (felt : PyVal) : Except PyErr String :=
  match felt with
  | .int _ => .error .typeError
  | .str s =>
      match (if strContains0x s then pyIntBase16 s else pyIntOfString s) with
      | .error e => .error e
      | .ok n =>
          match intToBytesBE n 31 with
          | .error e => .error e
          | .ok bs => bytesDecode bs

/-- `to_uint` (utils/__init__.py lines 51-54).  `a = int(a)` is the identity
on the integer inputs modelled here; Python's `a & ((1 << 128) - 1)` on an
unbounded int is the nonnegative residue mod `2^128` (two's-complement
semantics), and `a >> 128` is the floor shift, hence `Int.fdiv`. -/
def to_uint (a : ℤ) : ℤ × ℤ :=
  (a.emod (2 ^ 128), a.fdiv (2 ^ 128))

/-- `from_uint` (utils/__init__.py lines 57-59): `uint[0] + (uint[1] << 128)`. -/
def from_uint (u : ℤ × ℤ) : ℤ :=
  u.1 + u.2 * 2 ^ 128

/-- `add_uint` (utils/__init__.py lines 62-67). -/
def add_uint (a b : ℤ × ℤ) : ℤ × ℤ :=
  to_uint (from_uint a + from_uint b)

/-- `sub_uint` (utils/__init__.py lines 70-75). -/
def sub_uint (a b : ℤ × ℤ) : ℤ × ℤ :=
  to_uint (from_uint a - from_uint b)

/-- `mul_uint` (utils/__init__.py lines 78-83). -/
def mul_uint (a b : ℤ × ℤ) : ℤ × ℤ :=
  to_uint (from_uint a * from_uint b)

/-- Bit length of a natural number (Python `int.bit_length`), via fuel
(`n` itself is enough fuel since halving reaches 0 within `n` steps). -/
def bitLenAux : ℕ → ℕ → ℕ
  | 0, _ => 0
  | fuel + 1, n => if n = 0 then 0 else bitLenAux fuel (n / 2) + 1

/-- Bit length of a natural number. -/
def bitLen (n : ℕ) : ℕ := bitLenAux n n

/-- Whether `a / b ≥ 2 ^ e0` for positive naturals `a, b` and `e0 : ℤ`,
by cross-multiplying with the appropriate power of two. -/
def ratioAtLeastPow2 (a b : ℕ) (e0 : ℤ) : Bool :=
  b * 2 ^ e0.toNat ≤ a * 2 ^ (-e0).toNat

/-- `math.trunc(a / b)` for `a ≥ 0`, `b > 0` (utils/__init__.py line 89).
CPython's true division of two ints returns the IEEE-754 binary64 value
nearest to the exact quotient, ties to even (`long_true_divide`); `math.trunc`
then truncates the nonnegative result toward zero.  The quotient of two
uint256-range values lies well inside the normal binary64 range, so the
rounding is: find `e` with `2^e ≤ a/b < 2^(e+1)`, round the scaled
significand `a·2^(52-e)/b` to the nearest integer (ties to even), and
truncate `m·2^(e-52)`. -/
def truncTrueDiv (a b : ℕ) : ℕ :=
  if a = 0 then 0
  else
    let e0 : ℤ := (bitLen a : ℤ) - (bitLen b : ℤ)
    let e : ℤ := if ratioAtLeastPow2 a b e0 then e0 else e0 - 1
    let num := a * 2 ^ (52 - e).toNat
    let den := b * 2 ^ (e - 52).toNat
    let q := num / den
    let r := num % den
    let m := if 2 * r < den then q
             else if den < 2 * r then q + 1
             else if q % 2 = 0 then q else q + 1
    if 52 ≤ e then m * 2 ^ (e - 52).toNat else m / 2 ^ (52 - e).toNat

/-- `div_rem_uint` (utils/__init__.py lines 86-92): `c = math.trunc(a / b)`
raises `ZeroDivisionError` when `b == 0`; the remainder is Python's `a % b`,
which for the nonnegative combined values reached from uint256 tuples is
`Int.emod`. -/
def div_rem_uint (a b : ℤ × ℤ) : Except PyErr ((ℤ × ℤ) × (ℤ × ℤ)) :=
  let a' := from_uint a
  let b' := from_uint b
  if b' = 0 then .error .zeroDivisionError
  else
    let c : ℤ := (truncTrueDiv a'.toNat b'.toNat : ℕ)
    let m : ℤ := a'.emod b'
    .ok (to_uint c, to_uint m)

/-- A well-formed uint256 tuple: both limbs in `[0, 2^128)`. -/
def wfUint (u : ℤ × ℤ) : Prop :=
  0 ≤ u.1 ∧ u.1 < 2 ^ 128 ∧ 0 ≤ u.2 ∧ u.2 < 2 ^ 128

instance (u : ℤ × ℤ) : Decidable (wfUint u) := by
  unfold wfUint; infer_instance

/-- The lowercase hex digits of `n`, most significant first (fuel-based). -/
def hexDigitsAux : ℕ → ℕ → List Char
  | 0, _ => []
  | fuel + 1, n =>
      if n = 0 then []
      else hexDigitsAux fuel (n / 16) ++
        [Char.ofNat (if n % 16 < 10 then 48 + n % 16 else 87 + n % 16)]

/-- Python `hex(n)` for `n ≥ 0`: `"0x"` followed by the lowercase hex digits
(`"0x0"` for zero). -/
def pyHex (n : ℕ) : String :=
  "0x" ++ (if n = 0 then "0" else String.mk (hexDigitsAux n n))

/-- `_pad_hex_to_64` (utils/__init__.py lines 159-162): pads with zeros after
the `0x` marker up to total length 66 — but only when the input is shorter
than 66 characters; the `if` has no `else` branch, so Python returns `None`
(here `none`) for anything of length 66 or more. -/
def _pad_hex_to_64 (hexadecimal : String) : Option String :=
  if hexadecimal.length < 66 then
    some ((hexadecimal.take 2) ++
      String.mk (List.replicate (66 - hexadecimal.length) '0') ++
      hexadecimal.drop 2)
  else
    none

/-- `hex_address` (utils/__init__.py lines 151-156): a string starting with
`0x` is padded directly; anything else goes through `int` and `hex` first. -/
def hex_address (number : PyVal) : Except PyErr (Option String) :=
  match number with
  | .str s =>
      if strStarts0x s then .ok (_pad_hex_to_64 s)
      else
        match pyIntOfString s with
        | .error e => .error e
        | .ok n =>
            if 0 ≤ n then .ok (_pad_hex_to_64 (pyHex n.toNat))
            else .ok (_pad_hex_to_64 ("-" ++ pyHex (-n).toNat))
  | .int n =>
      if 0 ≤ n then .ok (_pad_hex_to_64 (pyHex n.toNat))
      else .ok (_pad_hex_to_64 ("-" ++ pyHex (-n).toNat))

/-! ## The Account layer (src/nile/core/account.py)

`nile.common`, `nile.accounts`, `nile.deployments`, the signer and the
dispatcher are collaborator modules that are not under src/; they are
modelled from the specification's collaborator contracts (§4.1, §6) and
marked `Modelled from the spec`. -/

/-- Modelled from the spec: `nile.common.is_alias` is not under src/.
§4.3 has `send` resolve `to` by "if it is recognized as an alias token,
resolve via AddressBook.loadDeployment ... else normalize it as a numeric
address", and the glossary defines an alias as a human-chosen name usable
wherever a raw address is accepted.  Modelled as: a string that is neither
`0x`-hex nor decimal; an integer is never an alias. -/
def is_alias : PyVal → Bool
  | .int _ => false
  | .str s => !(strStarts0x s || (digitsValue decDigit 10 s.toList).isSome)

/-- Modelled from the spec: `nile.deployments.load` is not under src/.
§4.1 `loadDeployment(aliasOrAddress, network)` produces a lazy finite
sequence of matching records, empty on a miss; §3 says deployment records
are "looked up by alias or by raw address".  The per-network registry is a
list of key-address pairs; the sequence of matches is returned. -/
def load_deployment (key : PyVal) (registry : List (PyVal × ℤ)) : List ℤ :=
  (registry.filter (fun p => p.1 == key)).map (fun p => p.2)

/-- One call of the payload handed to the signer: the source builds
`calls=[[target_address, method, calldata]]`; the target may be a resolved
integer address or the literal alias string fallback. -/
structure Call where
  target : PyVal
  method : String
  calldata : List ℤ
deriving DecidableEq, Repr

/-- The fully assembled single-call invoke request that `send` hands to the
external signer (`sign_transaction`) and dispatcher (`call_or_invoke`): the
sender, the calls list, the resolved nonce and max fee. -/
structure InvokeRequest where
  sender : ℤ
  calls : List Call
  nonce : ℤ
  max_fee : ℤ
deriving DecidableEq, Repr

/-- The comprehension `[int(x) for x in calldata]` (account.py line 134):
the first element `int` rejects raises, aborting the call. -/
def convertCalldata : List PyVal → Except PyErr (List ℤ)
  | [] => .ok []
  | x :: xs =>
      match pyInt x with
      | .error e => .error e
      | .ok v =>
          match convertCalldata xs with
          | .error e => .error e
          | .ok vs => .ok (v :: vs)

/-- `Account.send` (account.py lines 124-159), up to the hand-off to the
external signer/dispatcher: resolves `to` (`normalize_number` when it is not
an alias, then the deployment lookup, falling back to the literal value when
`next` raises `StopIteration` on an empty result), converts every calldata
element with `int`, defaults the nonce from the external nonce query
(`nonceOracle`, `get_nonce`) and `max_fee` to 0, and assembles the
single-call payload passed to `sign_transaction`.  The signer and
`call_or_invoke` are external collaborators; the request they receive is the
result. -/
def Account.send (registry : List (PyVal × ℤ)) (nonceOracle : ℤ) (sender : ℤ)
    (toArg : PyVal) (method : String) (calldata : List PyVal)
    (max_fee : Option PyVal) (nonce : Option ℤ) : Except PyErr InvokeRequest :=
  let resolved : Except PyErr PyVal :=
    if is_alias toArg then .ok toArg
    else
      match normalize_number toArg with
      | .error e => .error e
      | .ok n => .ok (.int n)
  match resolved with
  | .error e => .error e
  | .ok toVal =>
      let target_address : PyVal :=
        match (load_deployment toVal registry).head? with
        | some addr => .int addr
        | none => toVal
      match convertCalldata calldata with
      | .error e => .error e
      | .ok vals =>
          let nonceVal : ℤ := match nonce with | some n => n | none => nonceOracle
          match (match max_fee with | none => .ok 0 | some v => pyInt v :
              Except PyErr ℤ) with
          | .error e => .error e
          | .ok maxFeeVal =>
              .ok { sender := sender,
                    calls := [⟨target_address, method, vals⟩],
                    nonce := nonceVal, max_fee := maxFeeVal }

/-- Modelled from the spec: `nile.common.UNIVERSAL_DEPLOYER_ADDRESS` is not
under src/; the spec (§4.3, glossary) requires only a well-known fixed
universal-deployer address.  None of the theorems depend on the concrete
value. -/
def UNIVERSAL_DEPLOYER_ADDRESS : ℤ :=
  0x041a78e741e5af2fec34b695679bc6891742439f7afb8484ecd7766661ad02bf

/-- Python truthiness of the value kinds in play, for
`deployer_address or UNIVERSAL_DEPLOYER_ADDRESS`. -/
def pyTruthy : PyVal → Bool
  | .int n => n ≠ 0
  | .str s => s ≠ ""

/-- Python `x or dflt` for an optional argument whose default is `None`. -/
def pyOr (x : Option PyVal) (dflt : PyVal) : PyVal :=
  match x with
  | some v => if pyTruthy v then v else dflt
  | none => dflt

/-- `Account.deploy_contract` (account.py lines 113-122): delegates to
`send`, targeting `deployer_address or UNIVERSAL_DEPLOYER_ADDRESS`, with
method `"deployContract"` and calldata
`[class_hash, salt, unique, len(calldata), *calldata]`. -/
def Account.deploy_contract (registry : List (PyVal × ℤ)) (nonceOracle : ℤ)
    (sender : ℤ) (class_hash salt unique : PyVal) (calldata : List PyVal)
    (max_fee : Option PyVal) (deployer_address : Option PyVal) :
    Except PyErr InvokeRequest :=
  Account.send registry nonceOracle sender
    (pyOr deployer_address (.int UNIVERSAL_DEPLOYER_ADDRESS))
    "deployContract"
    ([class_hash, salt, unique, .int calldata.length] ++ calldata)
    max_fee none

/-- One record of the per-network account book.  Modelled from the spec
(§3, §4.1): `nile.accounts` is not under src/. -/
structure AccountRecord where
  public_key : ℤ
  address : ℤ
  index : ℕ
  alias_ : PyVal
  network : String
deriving DecidableEq, Repr

/-- Modelled from the spec: `nile.accounts.exists` (§4.1 `accountExists`). -/
def accounts_exists (pub : ℤ) (network : String) (reg : List AccountRecord) : Bool :=
  reg.any (fun r => r.public_key == pub && r.network == network)

/-- Modelled from the spec: `nile.accounts.load` (§4.1 `loadAccount`): a
lazy finite sequence of matching records, empty on a miss. -/
def accounts_load (pub : ℤ) (network : String) (reg : List AccountRecord) :
    List AccountRecord :=
  reg.filter (fun r => r.public_key == pub && r.network == network)

/-- Modelled from the spec: `nile.accounts.current_index` (§4.1
`currentIndex`): the next unused deployment index for the network, 0 when
none exist. -/
def accounts_current_index (network : String) (reg : List AccountRecord) : ℕ :=
  (reg.filter (fun r => r.network == network)).length

/-- Modelled from the spec: `nile.accounts.register` (§4.1
`registerAccount`): appends the persisted record. -/
def accounts_register (pub addr : ℤ) (index : ℕ) (al : PyVal) (network : String)
    (reg : List AccountRecord) : List AccountRecord :=
  reg ++ [⟨pub, addr, index, al, network⟩]

/-- `Account.deploy` (account.py lines 61-79).  The external dispatcher's
deploy path (`nile.core.deploy`, not under src/) is modelled by its outcome
for this call, `deployResult`: a deployed address, or a raised error.
Returns the `(address, index)` pair and the resulting account book; a raised
dispatch error propagates before `accounts.register` runs, so the book is
returned unchanged in that case. -/
def Account.deploy (deployResult : Except PyErr ℤ) (pub : ℤ) (al : PyVal)
    (network : String) (reg : List AccountRecord) :
    Except PyErr (ℤ × ℕ) × List AccountRecord :=
  let index := accounts_current_index network reg
  match deployResult with
  | .error e => (.error e, reg)
  | .ok address =>
      (.ok (address, index), accounts_register pub address index al network reg)

/-- The attributes of a constructed `Account` object; `none` means the
attribute was never assigned.  (`abi_path`, a static path computation with
no claim-relevant content, is omitted.) -/
structure AccountObj where
  signerKey : Option PyVal
  alias_ : Option PyVal
  network : Option String
  address : Option ℤ
  index : Option ℕ
deriving DecidableEq, Repr

/-- The `predeployed_info` dictionary: alias, address and index. -/
structure PredeployedInfo where
  alias_ : PyVal
  address : ℤ
  index : ℕ
deriving DecidableEq, Repr

/-- `Account.__init__` (account.py lines 26-59).  External collaborators:
`env` models `os.environ`, `pubkeyOf` the signer key → public key map of
`nile.signer.Signer`, `deployResult` the dispatcher outcome used on
first-use deployment, and `reg` the persisted account book.  A missing
environment entry raises `KeyError`, which the source catches, logs and
swallows, leaving the object with no attribute assigned (the failing lookup
happens before any assignment); a `ValueError` raised by `normalize_number`
is *not* caught and propagates.  Returns the constructed object or the
propagated error, with the possibly updated account book. -/
def Account.init (env : String → Option String) (pubkeyOf : ℤ → ℤ)
    (deployResult : Except PyErr ℤ) (reg : List AccountRecord)
    (signer : PyVal) (network : String) (predeployed : Option PredeployedInfo) :
    Except PyErr AccountObj × List AccountRecord :=
  match predeployed with
  | none =>
      match signer with
      | .int _ => (.error .typeError, reg)
      | .str s =>
          match env s with
          | none => (.ok ⟨none, none, none, none, none⟩, reg)
          | some v =>
              match normalize_number (.str v) with
              | .error e => (.error e, reg)
              | .ok key =>
                  let pub := pubkeyOf key
                  if accounts_exists pub network reg then
                    match accounts_load pub network reg with
                    | [] => (.error .stopIteration, reg)
                    | r :: _ =>
                        (.ok ⟨some (.int key), some (.str s), some network,
                              some r.address, some r.index⟩, reg)
                  else
                    match Account.deploy deployResult pub (.str s) network reg with
                    | (.error e, reg') => (.error e, reg')
                    | (.ok (address, index), reg') =>
                        (.ok ⟨some (.int key), some (.str s), some network,
                              some address, some index⟩, reg')
  | some info =>
      (.ok ⟨some signer, some info.alias_, some network,
            some info.address, some info.index⟩, reg)

/-! ## Theorems -/

/-- Recomposing a decomposition is the identity on every integer: the low
limb is the residue and the high limb the floor quotient by `2^128`. -/
theorem from_uint_to_uint (a : ℤ) : from_uint (to_uint a) = a := by
  unfold from_uint to_uint
  dsimp only
  rw [Int.fdiv_eq_ediv _ (by norm_num)]
  have hm : Int.emod a (2 ^ 128) = a % (2 ^ 128) := rfl
  rw [hm]
  have h : ((2 : ℤ) ^ 128) = 340282366920938463463374607431768211456 := by norm_num
  rw [h]
  omega

/-- Claim C8: round-trip of the uint256 codec — for every integer `a` in
`[0, 2^256)`, `from_uint (to_uint a) = a`, with `to_uint` masking the low
128 bits and shifting for the high limb. -/
theorem uint_roundtrip (a : ℤ) (_h0 : 0 ≤ a) (_h1 : a < 2 ^ 256) :
    from_uint (to_uint a) = a :=
  from_uint_to_uint a

/-- Witness for C8 at `a = 123456789`. -/
theorem uint_roundtrip_witness :
    (0 : ℤ) ≤ 123456789 ∧ (123456789 : ℤ) < 2 ^ 256 ∧
    from_uint (to_uint 123456789) = 123456789 :=
  ⟨by norm_num, by norm_num, uint_roundtrip 123456789 (by norm_num) (by norm_num)⟩

/-- Claim C4 counterexample: `sub_uint (to_uint 0) (to_uint 1)` has high limb
`-1`: the result neither satisfies the 128-bit limb invariant nor wraps to
the tuple of `2^256 - 1`. -/
theorem sub_uint_underflow_negative_limb :
    sub_uint (to_uint 0) (to_uint 1) = (2 ^ 128 - 1, -1) ∧
    ¬ wfUint (sub_uint (to_uint 0) (to_uint 1)) ∧
    sub_uint (to_uint 0) (to_uint 1) ≠ to_uint (2 ^ 256 - 1) := by
  refine ⟨by decide, by decide, by decide⟩

/-- Claim C4 (amended): `add_uint`/`sub_uint`/`mul_uint` return exactly
`to_uint` of the integer sum, difference or product of the recomposed
operands, with no overflow guard; the low limb of any such result lies in
`[0, 2^128)`, but the high limb is the floor shift of the exact integer
result, so values leaving the 256-bit range do not wrap: `from_uint` of the
result equals the exact (possibly negative or oversized) integer result. -/
theorem uint_arith_exact (a b : ℤ × ℤ) :
    add_uint a b = to_uint (from_uint a + from_uint b) ∧
    sub_uint a b = to_uint (from_uint a - from_uint b) ∧
    mul_uint a b = to_uint (from_uint a * from_uint b) ∧
    from_uint (add_uint a b) = from_uint a + from_uint b ∧
    from_uint (sub_uint a b) = from_uint a - from_uint b ∧
    from_uint (mul_uint a b) = from_uint a * from_uint b ∧
    0 ≤ (add_uint a b).1 ∧ (add_uint a b).1 < 2 ^ 128 ∧
    0 ≤ (sub_uint a b).1 ∧ (sub_uint a b).1 < 2 ^ 128 ∧
    0 ≤ (mul_uint a b).1 ∧ (mul_uint a b).1 < 2 ^ 128 := by
  refine ⟨rfl, rfl, rfl, from_uint_to_uint _, from_uint_to_uint _, from_uint_to_uint _,
    ?_, ?_, ?_, ?_, ?_, ?_⟩ <;>
    first
      | exact Int.emod_nonneg _ (by norm_num)
      | exact Int.emod_lt_of_pos _ (by norm_num)

/-- Claim C2 counterexample: at `a = to_uint (2^200 + 1)` and `b = to_uint 1`
the quotient is computed through float true division
(`math.trunc(a / b)`), which rounds `2^200 + 1` to `2^200`; the returned
pair violates `q*b + r = a`. -/
theorem div_rem_uint_euclid_fails :
    div_rem_uint (1, 2 ^ 72) (1, 0) = .ok ((0, 2 ^ 72), (0, 0)) ∧
    wfUint (1, 2 ^ 72) ∧ wfUint (1, 0) ∧ from_uint (1, 0) ≠ 0 ∧
    from_uint (0, 2 ^ 72) * from_uint (1, 0) + from_uint (0, 0) ≠
      from_uint (1, 2 ^ 72) := by
  refine ⟨by decide, by decide, by decide, by decide, by decide⟩

/-- Claim C2 (amended): for well-formed uint256 operands with `b ≠ 0`,
`div_rem_uint` succeeds and its remainder is exactly the Euclidean remainder
of the recomposed values, hence `0 ≤ r < b`; the quotient, however, is the
truncation of the IEEE-754 float quotient and the full identity
`q*b + r = a` holds only when that rounding is exact. -/
theorem div_rem_uint_remainder_correct (a b : ℤ × ℤ) (_ha : wfUint a)
    (hb : wfUint b) (hnz : from_uint b ≠ 0) :
    ∃ q r, div_rem_uint a b = .ok (q, r) ∧
      from_uint r = from_uint a % from_uint b ∧
      0 ≤ from_uint r ∧ from_uint r < from_uint b := by
  obtain ⟨hb1, hb2, hb3, hb4⟩ := hb
  have hbnonneg : 0 ≤ from_uint b :=
    add_nonneg hb1 (mul_nonneg hb3 (by norm_num))
  have hbpos : 0 < from_uint b := lt_of_le_of_ne hbnonneg (Ne.symm hnz)
  refine ⟨to_uint ((truncTrueDiv (from_uint a).toNat (from_uint b).toNat : ℕ) : ℤ),
    to_uint ((from_uint a).emod (from_uint b)), ?_, ?_, ?_, ?_⟩
  · unfold div_rem_uint
    rw [if_neg hnz]
  · rw [from_uint_to_uint]
    rfl
  · rw [from_uint_to_uint]
    exact Int.emod_nonneg _ hnz
  · rw [from_uint_to_uint]
    exact Int.emod_lt_of_pos _ hbpos

/-- Witness for C2 (amended) at `a = (7, 0)`, `b = (3, 0)`. -/
theorem div_rem_uint_remainder_correct_witness :
    wfUint (7, 0) ∧ wfUint (3, 0) ∧ from_uint (3, 0) ≠ 0 ∧
    (∃ q r, div_rem_uint (7, 0) (3, 0) = .ok (q, r) ∧
      from_uint r = from_uint (7, 0) % from_uint (3, 0) ∧
      0 ≤ from_uint r ∧ from_uint r < from_uint (3, 0)) :=
  ⟨by decide, by decide, by decide,
    div_rem_uint_remainder_correct (7, 0) (3, 0) (by decide) (by decide) (by decide)⟩

/-- Claim C1 counterexample: `str_to_felt "hello"` is the integer
`448378203247`, and `felt_to_str` applied to that integer raises `TypeError`
(its first line applies `in` to the argument), so the round-trip does not
return `"hello"`. -/
theorem felt_roundtrip_hello_raises :
    str_to_felt "hello" = .ok 448378203247 ∧
    felt_to_str (.int 448378203247) = .error .typeError := by
  refine ⟨by decide, rfl⟩

/-- Claim C1 (amended): `felt_to_str` raises `TypeError` on every integer
argument; given the decimal string rendering of `str_to_felt "hello"` it
returns the original string left-padded to 31 bytes with NUL characters
(`to_bytes(31, "big")` zero-pads on the left), which ends in `"hello"` but
differs from it. -/
theorem felt_roundtrip_padded :
    (∀ n : ℤ, felt_to_str (.int n) = .error .typeError) ∧
    felt_to_str (.str "448378203247") =
      .ok (String.mk (List.replicate 26 (Char.ofNat 0)) ++ "hello") ∧
    (String.mk (List.replicate 26 (Char.ofNat 0)) ++ "hello").drop 26 = "hello" ∧
    String.mk (List.replicate 26 (Char.ofNat 0)) ++ "hello" ≠ "hello" := by
  refine ⟨fun n => rfl, by decide, by decide, by decide⟩

/-- Claim C9: the in-particular part holds — `hex_address 26` is the
66-character canonical form and equals `hex_address "0x1a"` — but the claim
fails in general: `_pad_hex_to_64` has no `else` branch, so any value whose
hex rendering already has 66 characters (e.g. `2^252`) makes `hex_address`
return Python `None` instead of a string. -/
theorem hex_address_missing_else :
    hex_address (.int 26) =
      .ok (some "0x000000000000000000000000000000000000000000000000000000000000001a") ∧
    hex_address (.str "0x1a") = hex_address (.int 26) ∧
    ("0x000000000000000000000000000000000000000000000000000000000000001a" : String).length = 66 ∧
    hex_address (.int (2 ^ 252)) = .ok none ∧
    _pad_hex_to_64 (pyHex (2 ^ 252)) = none := by
  refine ⟨by decide, by decide, by decide, by decide, by decide⟩

/-- Claim C5: soft-fail at construction — when no predeployed metadata is
given and the environment lookup for the signer alias misses, `__init__`
raises no exception: it returns an object with no attribute assigned
(address and index unset), leaving the account book untouched; the failure
is only logged. -/
theorem account_init_soft_fail (env : String → Option String) (pubkeyOf : ℤ → ℤ)
    (deployResult : Except PyErr ℤ) (reg : List AccountRecord)
    (s network : String) (henv : env s = none) :
    Account.init env pubkeyOf deployResult reg (.str s) network none =
      (.ok ⟨none, none, none, none, none⟩, reg) := by
  simp [Account.init, henv]

/-- Witness for C5 with an empty environment. -/
theorem account_init_soft_fail_witness :
    ((fun _ : String => (none : Option String)) "MY_SIGNER" = none) ∧
    Account.init (fun _ => none) (fun k => k) (.ok 0) [] (.str "MY_SIGNER")
        "goerli" none =
      (.ok ⟨none, none, none, none, none⟩, []) :=
  ⟨rfl, account_init_soft_fail (fun _ => none) (fun k => k) (.ok 0) []
    "MY_SIGNER" "goerli" rfl⟩

/-- Claim C10: atomicity of first-use account deployment — `Account.deploy`
registers the record only after the external dispatch returns successfully;
a raised dispatch error propagates with the account book unchanged, and a
successful dispatch registers exactly the new record at the current index. -/
theorem account_deploy_atomic (pub : ℤ) (al : PyVal) (network : String)
    (reg : List AccountRecord) :
    (∀ e, Account.deploy (.error e) pub al network reg = (.error e, reg)) ∧
    (∀ address, Account.deploy (.ok address) pub al network reg =
      (.ok (address, accounts_current_index network reg),
        accounts_register pub address (accounts_current_index network reg)
          al network reg)) :=
  ⟨fun _ => rfl, fun _ => rfl⟩

/-- Claim C6: two-step target resolution in `send` — an alias `to` is looked
up in the deployment book, an empty result falls back to the literal value
(never an error), a nonempty result resolves to the first recorded address,
and a non-alias `to` is numerically normalized (hex base-16, others base-10)
before the lookup. -/
theorem send_two_step_resolution :
    (∀ (registry : List (PyVal × ℤ)) (nonceOracle sender : ℤ) (toArg : PyVal)
        (method : String) (calldata : List PyVal) (vals : List ℤ),
      is_alias toArg = true → load_deployment toArg registry = [] →
      convertCalldata calldata = Except.ok vals →
      Account.send registry nonceOracle sender toArg method calldata none none =
        .ok ⟨sender, [⟨toArg, method, vals⟩], nonceOracle, 0⟩) ∧
    (∀ (registry : List (PyVal × ℤ)) (nonceOracle sender : ℤ) (toArg : PyVal)
        (method : String) (calldata : List PyVal) (vals : List ℤ)
        (addr : ℤ) (rest : List ℤ),
      is_alias toArg = true → load_deployment toArg registry = addr :: rest →
      convertCalldata calldata = Except.ok vals →
      Account.send registry nonceOracle sender toArg method calldata none none =
        .ok ⟨sender, [⟨.int addr, method, vals⟩], nonceOracle, 0⟩) ∧
    (∀ (registry : List (PyVal × ℤ)) (nonceOracle sender : ℤ) (toArg : PyVal)
        (method : String) (calldata : List PyVal) (k : ℤ),
      is_alias toArg = false → normalize_number toArg = .ok k →
      Account.send registry nonceOracle sender toArg method calldata none none =
        Account.send registry nonceOracle sender (.int k) method calldata none none) ∧
    normalize_number (.str "0x1a") = .ok 26 ∧
    normalize_number (.str "26") = .ok 26 := by
  refine ⟨?_, ?_, ?_, by decide, by decide⟩
  · intro registry nonceOracle sender toArg method calldata vals h1 h2 h3
    simp [Account.send, h1, h2, h3]
  · intro registry nonceOracle sender toArg method calldata vals addr rest h1 h2 h3
    simp [Account.send, h1, h2, h3]
  · intro registry nonceOracle sender toArg method calldata k h1 h2
    unfold Account.send
    rw [h1, h2]
    simp [is_alias, normalize_number]

/-- Witness for C6: the alias `"some-alias"` with no deployment record
becomes the literal target. -/
theorem send_two_step_resolution_witness :
    is_alias (.str "some-alias") = true ∧
    load_deployment (.str "some-alias") [] = [] ∧
    convertCalldata [PyVal.int 5] = Except.ok [5] ∧
    Account.send [] 7 11 (.str "some-alias") "transfer" [.int 5] none none =
      .ok ⟨11, [⟨.str "some-alias", "transfer", [5]⟩], 7, 0⟩ :=
  ⟨by decide, rfl, rfl,
    send_two_step_resolution.1 [] 7 11 (.str "some-alias") "transfer" [.int 5] [5]
      (by decide) rfl rfl⟩

/-- Claim C3 counterexample: the spec scenario
`send(to="some-alias", method="transfer", calldata=["0x1", "100"])` does not
succeed — the conversion `[int(x) for x in calldata]` raises `ValueError` on
the hex string `"0x1"` (`int` parses base 10 only); the same happens with an
integer target. -/
theorem send_hex_calldata_fails :
    Account.send [] 0 1111 (.str "some-alias") "transfer"
        [.str "0x1", .str "100"] none none = .error .valueError ∧
    Account.send [] 0 1111 (.int 1234) "transfer"
        [.str "0x1", .str "100"] none none = .error .valueError ∧
    pyInt (.str "0x1") = .error .valueError := by
  refine ⟨by decide, by decide, by decide⟩

/-- Claim C3 (amended): `send` converts every calldata element with Python's
`int`: integer elements and decimal strings such as `"100"` are normalized
to their integer values and the call proceeds, but hex strings such as
`"0x1"` raise `ValueError` at the conversion. -/
theorem send_calldata_int_conversion :
    (∀ (nonceOracle sender : ℤ) (method : String) (calldata : List PyVal)
        (vals : List ℤ),
      convertCalldata calldata = Except.ok vals →
      Account.send [] nonceOracle sender (.int 1234) method calldata none none =
        .ok ⟨sender, [⟨.int 1234, method, vals⟩], nonceOracle, 0⟩) ∧
    pyInt (.int 7) = .ok 7 ∧
    pyInt (.str "100") = .ok 100 ∧
    pyInt (.str "0x1") = .error .valueError := by
  refine ⟨?_, rfl, by decide, by decide⟩
  intro nonceOracle sender method calldata vals h
  simp [Account.send, h, is_alias, normalize_number, load_deployment]

/-- Witness for C3 (amended): calldata `[7, "100"]` is normalized to
`[7, 100]`. -/
theorem send_calldata_int_conversion_witness :
    convertCalldata [PyVal.int 7, PyVal.str "100"] = Except.ok [7, 100] ∧
    Account.send [] 3 9 (.int 1234) "transfer" [.int 7, .str "100"] none none =
      .ok ⟨9, [⟨.int 1234, "transfer", [7, 100]⟩], 3, 0⟩ :=
  ⟨by decide, send_calldata_int_conversion.1 3 9 "transfer"
    [.int 7, .str "100"] [7, 100] (by decide)⟩

/-- Claim C7: `deploy_contract` delegates to `send` and builds exactly one
call — targeting the universal deployer when `deployer_address` is absent,
or the given deployer — with method `"deployContract"` and calldata
`[class_hash, salt, unique, len(calldata), *calldata]`. -/
theorem deploy_contract_builds_call :
    (∀ (registry : List (PyVal × ℤ)) (nonceOracle sender : ℤ)
        (class_hash salt unique : PyVal) (calldata : List PyVal)
        (max_fee : Option PyVal) (deployer_address : Option PyVal),
      Account.deploy_contract registry nonceOracle sender class_hash salt
          unique calldata max_fee deployer_address =
        Account.send registry nonceOracle sender
          (pyOr deployer_address (.int UNIVERSAL_DEPLOYER_ADDRESS))
          "deployContract"
          ([class_hash, salt, unique, .int calldata.length] ++ calldata)
          max_fee none) ∧
    (∀ (registry : List (PyVal × ℤ)) (nonceOracle sender : ℤ)
        (ch salt uq : ℤ) (calldata : List PyVal) (vals : List ℤ),
      load_deployment (.int UNIVERSAL_DEPLOYER_ADDRESS) registry = [] →
      convertCalldata calldata = Except.ok vals →
      Account.deploy_contract registry nonceOracle sender (.int ch) (.int salt)
          (.int uq) calldata none none =
        .ok ⟨sender,
          [⟨.int UNIVERSAL_DEPLOYER_ADDRESS, "deployContract",
            ch :: salt :: uq :: (calldata.length : ℤ) :: vals⟩],
          nonceOracle, 0⟩) ∧
    (∀ (registry : List (PyVal × ℤ)) (nonceOracle sender : ℤ)
        (ch salt uq d : ℤ) (calldata : List PyVal) (vals : List ℤ),
      d ≠ 0 →
      load_deployment (.int d) registry = [] →
      convertCalldata calldata = Except.ok vals →
      Account.deploy_contract registry nonceOracle sender (.int ch) (.int salt)
          (.int uq) calldata none (some (.int d)) =
        .ok ⟨sender, [⟨.int d, "deployContract",
          ch :: salt :: uq :: (calldata.length : ℤ) :: vals⟩], nonceOracle, 0⟩) := by
  refine ⟨fun _ _ _ _ _ _ _ _ _ => rfl, ?_, ?_⟩
  · intro registry nonceOracle sender ch salt uq calldata vals h1 h2
    simp [Account.deploy_contract, Account.send, pyOr, h1, h2, is_alias,
      normalize_number, convertCalldata, pyInt]
  · intro registry nonceOracle sender ch salt uq d calldata vals hd h1 h2
    simp [Account.deploy_contract, Account.send, pyOr, pyTruthy, hd, h1, h2,
      is_alias, normalize_number, convertCalldata, pyInt]

/-- Witness for C7: a 2-element calldata produces the exact list
`[classHash, salt, unique, 2, calldata[0], calldata[1]]`. -/
theorem deploy_contract_builds_call_witness :
    load_deployment (.int UNIVERSAL_DEPLOYER_ADDRESS) [] = [] ∧
    convertCalldata [PyVal.int 21, PyVal.int 22] = Except.ok [21, 22] ∧
    Account.deploy_contract [] 5 17 (.int 101) (.int 102) (.int 1)
        [.int 21, .int 22] none none =
      .ok ⟨17, [⟨.int UNIVERSAL_DEPLOYER_ADDRESS, "deployContract",
        [101, 102, 1, 2, 21, 22]⟩], 5, 0⟩ :=
  ⟨rfl, rfl, deploy_contract_builds_call.2.1 [] 5 17 101 102 1
    [.int 21, .int 22] [21, 22] rfl rfl⟩

end Nile
